import Mathlib

/-!
Formal model of the doorscan access-control core (event bus, Wiegand frame
assembler, access worker, lock actuators), shallowly embedded from the
Python sources in src/doorscan.  Python float timestamps (seconds from
time.time()) are modelled as rationals; Python dicts are modelled as
association lists with unique keys.
-/

namespace DoorScan

/-- Wall-clock timestamps (Python time.time() float seconds) as rationals. -/
abbrev Time := ℚ

/-- Python dict lookup `m.get(k)` on an association-list encoding of a dict
(keys unique, insertion ordered). -/
def dGet {α : Type} (m : List (String × α)) (k : String) : Option α :=
  match m with
  | [] => none
  | (k', v) :: rest => if k' = k then some v else dGet rest k

/-- Python dict assignment `m[k] = v`: replace the value at an existing key
in place, otherwise append the new key at the end. -/
def dSet {α : Type} (m : List (String × α)) (k : String) (v : α) : List (String × α) :=
  match m with
  | [] => [(k, v)]
  | (k', v') :: rest => if k' = k then (k', v) :: rest else (k', v') :: dSet rest k v

/-- Python dict removal `m.pop(k, None)`: drop the entry for `k` (a no-op when
the key is absent; on the unique-key encodings reachable from dict operations
this removes exactly the one entry for `k`). -/
def dPop {α : Type} (m : List (String × α)) (k : String) : List (String × α) :=
  match m with
  | [] => []
  | (k', v') :: rest => if k' = k then dPop rest k else (k', v') :: dPop rest k

theorem dGet_dSet_same {α : Type} (m : List (String × α)) (k : String) (v : α) :
    dGet (dSet m k v) k = some v := by
  induction m with
  | nil => simp [dGet, dSet]
  | cons kv rest ih =>
    obtain ⟨k', v'⟩ := kv
    by_cases h : k' = k <;> simp [dGet, dSet, h, ih]

theorem dGet_dSet_other {α : Type} (m : List (String × α)) (k k' : String) (v : α)
    (h : k' ≠ k) : dGet (dSet m k v) k' = dGet m k' := by
  have hk : ¬ k = k' := fun hk => h hk.symm
  induction m with
  | nil => simp [dGet, dSet, hk]
  | cons kv rest ih =>
    obtain ⟨k0, v0⟩ := kv
    by_cases h0 : k0 = k
    · subst h0
      simp [dGet, dSet, hk]
    · by_cases h1 : k0 = k' <;> simp [dGet, dSet, h0, h1, h, ih]

theorem dGet_dPop_same {α : Type} (m : List (String × α)) (k : String) :
    dGet (dPop m k) k = none := by
  induction m with
  | nil => simp [dGet, dPop]
  | cons kv rest ih =>
    obtain ⟨k', v'⟩ := kv
    by_cases h : k' = k <;> simp [dGet, dPop, h, ih]

theorem dGet_dPop_other {α : Type} (m : List (String × α)) (k k' : String)
    (h : k' ≠ k) : dGet (dPop m k) k' = dGet m k' := by
  have hk : ¬ k = k' := fun hk => h hk.symm
  induction m with
  | nil => simp [dGet, dPop]
  | cons kv rest ih =>
    obtain ⟨k0, v0⟩ := kv
    by_cases h0 : k0 = k
    · subst h0
      simp [dGet, dPop, hk, ih]
    · by_cases h1 : k0 = k' <;> simp [dGet, dPop, h0, h1, h, ih]

/-! ## Frame Assembler (PiWiegandReader in pi_gpio.py) -/

/-- WiegandConfig from pi_gpio.py (pin numbers, reader id, idle timeout). -/
structure WiegandConfig where
  d0_pin : ℕ
  d1_pin : ℕ
  reader_id : String
  pulse_timeout_ms : ℕ := 25
  deriving DecidableEq

/-- CardEvent from devices.py.  The `event_id` field (a fresh uuid4 assigned
in `__post_init__` when none is given) is an external randomness source that
no modelled behaviour reads, so it is not carried here. -/
structure CardEvent where
  reader_id : String
  raw_bits : String
  format : String
  card_number : Option ℤ
  parity_ok : Bool
  timestamp : Time
  deriving DecidableEq

/-- Value of a list of binary digit characters, most significant first. -/
def binVal (cs : List Char) : ℕ :=
  cs.foldl (fun acc c => 2 * acc + (if c = '1' then 1 else 0)) 0

/-- Python `int(raw, 2)` restricted to the digit strings reachable from the
bit buffer (concatenations of `str(bit)` for integer bits): succeeds exactly
on non-empty strings of 0/1 characters, otherwise raises, which the source
catches and turns into `card_num = None`. -/
def parseBin (s : String) : Option ℤ :=
  if s.length = 0 then none
  else if s.toList.all (fun c => c == '0' || c == '1') then some ((binVal s.toList : ℕ) : ℤ)
  else none

/-- Mutable state of PiWiegandReader: the bit buffer `_bits` (a list of
`str(bit)` strings) and `_last_bit_ts`. -/
structure ReaderState where
  bits : List String
  last_bit_ts : Option Time
  deriving DecidableEq

/-- Initial reader state: `_bits = []`, `_last_bit_ts = None`. -/
def emptyReader : ReaderState := ⟨[], none⟩

/-- PiWiegandReader._record_bit_async: append `str(bit)` to the buffer and
record the arrival timestamp.  (The deferred flush check it schedules via
`call_later` is modelled at the trace level as a `check` action.) -/
def recordBitAsync (st : ReaderState) (bit : ℕ) (ts : Time) : ReaderState :=
  { bits := st.bits ++ [toString bit], last_bit_ts := some ts }

/-- The idle timeout in seconds: `pulse_timeout_ms / 1000.0`. -/
def timeoutS (cfg : WiegandConfig) : Time := (cfg.pulse_timeout_ms : ℚ) / 1000

/-- PiWiegandReader._maybe_flush.  `now` is the first `time.time()` reading
(used in the elapsed-time comparison) and `ts2` the second (stored in the
emitted event).  The guard mirrors Python truthiness: `if self._last_bit_ts
and (now - self._last_bit_ts) >= timeout` is false when `_last_bit_ts` is
`None` or the float `0.0`.  On a genuine flush the event is emitted with
`parity_ok=True` (a literal in the source) and the buffer is reset. -/
def maybeFlush (cfg : WiegandConfig) (st : ReaderState) (now ts2 : Time) :
    ReaderState × Option CardEvent :=
  if st.bits = [] then (st, none)
  else
    match st.last_bit_ts with
    | none => (st, none)
    | some last =>
      if last ≠ 0 ∧ timeoutS cfg ≤ now - last then
        let raw := String.join st.bits
        (emptyReader,
         some { reader_id := cfg.reader_id, raw_bits := raw, format := "raw",
                card_number := parseBin raw, parity_ok := true, timestamp := ts2 })
      else (st, none)

/-- A step of the assembler's owning event loop: either a bit marshalled in by
`_record_bit` (with its `time.time()` reading) or a scheduled `_maybe_flush`
check firing (with its two `time.time()` readings). -/
inductive RAction where
  | bit (b : ℕ) (ts : Time)
  | check (now ts2 : Time)
  deriving DecidableEq

/-- One trace step of the assembler, accumulating emitted CardEvents. -/
def readerStep (cfg : WiegandConfig) :
    ReaderState × List CardEvent → RAction → ReaderState × List CardEvent
  | (st, evts), .bit b ts => (recordBitAsync st b ts, evts)
  | (st, evts), .check now ts2 =>
    match maybeFlush cfg st now ts2 with
    | (st', e) => (st', evts ++ e.toList)

/-- Run the assembler over a sequence of loop actions, collecting the emitted
CardEvents in order. -/
def runReader (cfg : WiegandConfig) (st : ReaderState) (acts : List RAction) :
    ReaderState × List CardEvent :=
  acts.foldl (readerStep cfg) (st, [])

/-- The CardEvent that a genuine flush of buffer `bits` builds (second
`time.time()` reading `ts2`): raw bits joined, naive binary decode,
`parity_ok=True` literal. -/
def mkFlushEvent (cfg : WiegandConfig) (bits : List String) (ts2 : Time) : CardEvent :=
  { reader_id := cfg.reader_id, raw_bits := String.join bits, format := "raw",
    card_number := parseBin (String.join bits), parity_ok := true, timestamp := ts2 }

/-- The trace of `_maybe_flush` firings for a list of `time.time()` reading
pairs. -/
def checksOf (cs : List (Time × Time)) : List RAction :=
  cs.map (fun c => RAction.check c.1 c.2)

theorem maybeFlush_of_empty (cfg : WiegandConfig) (now ts2 : Time) :
    maybeFlush cfg emptyReader now ts2 = (emptyReader, none) := by
  simp [maybeFlush, emptyReader]

theorem maybeFlush_noop (cfg : WiegandConfig) (st : ReaderState) (now ts2 : Time)
    (h : ¬ (st.bits ≠ [] ∧ ∃ l, st.last_bit_ts = some l ∧ timeoutS cfg ≤ now - l)) :
    maybeFlush cfg st now ts2 = (st, none) := by
  unfold maybeFlush
  by_cases hb : st.bits = []
  · simp [hb]
  · rw [if_neg hb]
    cases hl : st.last_bit_ts with
    | none => rfl
    | some l =>
      have hc : ¬ (l ≠ 0 ∧ timeoutS cfg ≤ now - l) := by
        rintro ⟨-, h2⟩
        exact h ⟨hb, l, hl, h2⟩
      simp [hc]

theorem maybeFlush_emit (cfg : WiegandConfig) (st : ReaderState) (now ts2 l : Time)
    (hb : st.bits ≠ []) (hl : st.last_bit_ts = some l) (h0 : l ≠ 0)
    (ht : timeoutS cfg ≤ now - l) :
    maybeFlush cfg st now ts2 = (emptyReader, some (mkFlushEvent cfg st.bits ts2)) := by
  unfold maybeFlush
  rw [if_neg hb, hl]
  simp [h0, ht, mkFlushEvent]

theorem maybeFlush_spec (cfg : WiegandConfig) (st : ReaderState) (now ts2 : Time) :
    maybeFlush cfg st now ts2 = (st, none) ∨
      maybeFlush cfg st now ts2 = (emptyReader, some (mkFlushEvent cfg st.bits ts2)) := by
  unfold maybeFlush
  by_cases hb : st.bits = []
  · left; simp [hb]
  · rw [if_neg hb]
    cases hl : st.last_bit_ts with
    | none => left; rfl
    | some l =>
      by_cases hc : l ≠ 0 ∧ timeoutS cfg ≤ now - l
      · right; simp [hc.1, hc.2, mkFlushEvent]
      · left; simp [hc]

theorem foldl_readerStep_shift (cfg : WiegandConfig) (acts : List RAction)
    (st : ReaderState) (evts : List CardEvent) :
    acts.foldl (readerStep cfg) (st, evts) =
      ((runReader cfg st acts).1, evts ++ (runReader cfg st acts).2) := by
  induction acts generalizing st evts with
  | nil => simp [runReader]
  | cons a acts ih =>
    have hstep : ∀ (s : ReaderState) (es : List CardEvent),
        readerStep cfg (s, es) a =
          ((readerStep cfg (s, []) a).1, es ++ (readerStep cfg (s, []) a).2) := by
      intro s es
      cases a with
      | bit b ts => simp [readerStep]
      | check now ts2 => simp [readerStep]
    calc (a :: acts).foldl (readerStep cfg) (st, evts)
        = acts.foldl (readerStep cfg) (readerStep cfg (st, evts) a) := rfl
      _ = acts.foldl (readerStep cfg)
            ((readerStep cfg (st, []) a).1, evts ++ (readerStep cfg (st, []) a).2) := by
            rw [hstep]
      _ = ((runReader cfg st (a :: acts)).1, evts ++ (runReader cfg st (a :: acts)).2) := by
            rw [ih]
            have : runReader cfg st (a :: acts) =
                acts.foldl (readerStep cfg) (readerStep cfg (st, []) a) := rfl
            rw [this, ih]
            simp

theorem runReader_append (cfg : WiegandConfig) (st : ReaderState)
    (a b : List RAction) :
    runReader cfg st (a ++ b) =
      ((runReader cfg (runReader cfg st a).1 b).1,
       (runReader cfg st a).2 ++ (runReader cfg (runReader cfg st a).1 b).2) := by
  unfold runReader
  rw [List.foldl_append]
  have h1 : a.foldl (readerStep cfg) (st, []) =
      ((runReader cfg st a).1, (runReader cfg st a).2) := rfl
  rw [h1, foldl_readerStep_shift]
  rfl

theorem runChecks_noop (cfg : WiegandConfig) (st : ReaderState) (cs : List (Time × Time))
    (h : ∀ c ∈ cs, maybeFlush cfg st c.1 c.2 = (st, none)) :
    runReader cfg st (checksOf cs) = (st, []) := by
  induction cs with
  | nil => rfl
  | cons c cs ih =>
    have hc := h c (List.mem_cons_self c cs)
    have hstep : readerStep cfg (st, []) (RAction.check c.1 c.2) = (st, []) := by
      simp [readerStep, hc]
    have : runReader cfg st (checksOf (c :: cs)) =
        (checksOf cs).foldl (readerStep cfg) (readerStep cfg (st, []) (RAction.check c.1 c.2)) := rfl
    rw [this, hstep]
    exact ih (fun c' hc' => h c' (List.mem_cons_of_mem c hc'))

theorem runChecks_of_empty (cfg : WiegandConfig) (cs : List (Time × Time)) :
    runReader cfg emptyReader (checksOf cs) = (emptyReader, []) :=
  runChecks_noop cfg emptyReader cs (fun c _ => maybeFlush_of_empty cfg c.1 c.2)

theorem runChecks_flush_once (cfg : WiegandConfig) (bits : List String) (l : Time)
    (cs : List (Time × Time)) (hb : bits ≠ []) (h0 : l ≠ 0)
    (ht : ∃ c ∈ cs, timeoutS cfg ≤ c.1 - l) :
    ∃ ts2, runReader cfg ⟨bits, some l⟩ (checksOf cs) =
      (emptyReader, [mkFlushEvent cfg bits ts2]) := by
  induction cs with
  | nil => simp at ht
  | cons c cs ih =>
    by_cases hc : timeoutS cfg ≤ c.1 - l
    · refine ⟨c.2, ?_⟩
      have hem := maybeFlush_emit cfg ⟨bits, some l⟩ c.1 c.2 l hb rfl h0 hc
      have hstep : readerStep cfg (⟨bits, some l⟩, []) (RAction.check c.1 c.2) =
          (emptyReader, [mkFlushEvent cfg bits c.2]) := by
        simp [readerStep, hem]
      have hrun : runReader cfg ⟨bits, some l⟩ (checksOf (c :: cs)) =
          (checksOf cs).foldl (readerStep cfg)
            (emptyReader, [mkFlushEvent cfg bits c.2]) := by
        show (checksOf cs).foldl (readerStep cfg)
            (readerStep cfg (⟨bits, some l⟩, []) (RAction.check c.1 c.2)) = _
        rw [hstep]
      rw [hrun, foldl_readerStep_shift, runChecks_of_empty]
      simp
    · have hnoop : maybeFlush cfg ⟨bits, some l⟩ c.1 c.2 = (⟨bits, some l⟩, none) := by
        refine maybeFlush_noop cfg ⟨bits, some l⟩ c.1 c.2 ?_
        rintro ⟨-, l', hl', hle⟩
        cases hl'
        exact hc hle
      have hstep : readerStep cfg (⟨bits, some l⟩, []) (RAction.check c.1 c.2) =
          (⟨bits, some l⟩, []) := by
        simp [readerStep, hnoop]
      have hrest : ∃ c' ∈ cs, timeoutS cfg ≤ c'.1 - l := by
        obtain ⟨c', hmem, hle⟩ := ht
        rcases List.mem_cons.mp hmem with h' | h'
        · exact absurd (h' ▸ hle) hc
        · exact ⟨c', h', hle⟩
      have hrun : runReader cfg ⟨bits, some l⟩ (checksOf (c :: cs)) =
          (checksOf cs).foldl (readerStep cfg) (⟨bits, some l⟩, []) := by
        show (checksOf cs).foldl (readerStep cfg)
            (readerStep cfg (⟨bits, some l⟩, []) (RAction.check c.1 c.2)) = _
        rw [hstep]
      rw [hrun]
      exact ih hrest

theorem runChecks_length_le_one (cfg : WiegandConfig) (st : ReaderState)
    (cs : List (Time × Time)) :
    ((runReader cfg st (checksOf cs)).2).length ≤ 1 := by
  induction cs generalizing st with
  | nil => simp [runReader, checksOf]
  | cons c cs ih =>
    rcases maybeFlush_spec cfg st c.1 c.2 with hmf | hmf
    · have hrun : runReader cfg st (checksOf (c :: cs)) =
          (checksOf cs).foldl (readerStep cfg) (st, []) := by
        show (checksOf cs).foldl (readerStep cfg)
            (readerStep cfg (st, []) (RAction.check c.1 c.2)) = _
        simp [readerStep, hmf]
      rw [hrun]
      exact ih st
    · have hrun : runReader cfg st (checksOf (c :: cs)) =
          (checksOf cs).foldl (readerStep cfg)
            (emptyReader, [mkFlushEvent cfg st.bits c.2]) := by
        show (checksOf cs).foldl (readerStep cfg)
            (readerStep cfg (st, []) (RAction.check c.1 c.2)) = _
        simp [readerStep, hmf]
      rw [hrun, foldl_readerStep_shift, runChecks_of_empty]
      simp

theorem toString_one_bit : toString (1 : ℕ) = "1" := rfl

theorem toString_zero_bit : toString (0 : ℕ) = "0" := rfl

theorem runReader_seq (cfg : WiegandConfig) {st st1 st2 : ReaderState}
    {a b : List RAction} {e1 e2 : List CardEvent}
    (ha : runReader cfg st a = (st1, e1)) (hb : runReader cfg st1 b = (st2, e2)) :
    runReader cfg st (a ++ b) = (st2, e1 ++ e2) := by
  have h := runReader_append cfg st a b
  rw [ha] at h
  simp only at h
  rw [hb] at h
  simpa using h

/-- The full event-loop trace for one three-bit frame: each received bit
followed by the deferred flush checks that fire before the next bit arrives
(`cs1`, `cs2`) and the checks that fire after the last bit (`cs3`). -/
def frameActs (t1 t2 t3 : Time) (cs1 cs2 cs3 : List (Time × Time)) : List RAction :=
  ([RAction.bit 1 t1] ++ checksOf cs1) ++
    (([RAction.bit 0 t2] ++ checksOf cs2) ++ ([RAction.bit 1 t3] ++ checksOf cs3))

theorem frame101 (cfg : WiegandConfig) (t1 t2 t3 : Time)
    (cs1 cs2 cs3 : List (Time × Time))
    (hpos : 0 < t1) (h12 : t1 ≤ t2) (h23 : t2 ≤ t3)
    (g12 : t2 - t1 < timeoutS cfg) (g23 : t3 - t2 < timeoutS cfg)
    (hc1 : ∀ c ∈ cs1, c.1 ≤ t2) (hc2 : ∀ c ∈ cs2, c.1 ≤ t3)
    (hc3 : ∃ c ∈ cs3, timeoutS cfg ≤ c.1 - t3) :
    ∃ ts2, runReader cfg emptyReader (frameActs t1 t2 t3 cs1 cs2 cs3) =
      (emptyReader, [mkFlushEvent cfg ["1", "0", "1"] ts2]) := by
  have hb1 : runReader cfg emptyReader [RAction.bit 1 t1] = (⟨["1"], some t1⟩, []) := by
    simp [runReader, readerStep, recordBitAsync, emptyReader, toString_one_bit]
  have hn1 : runReader cfg ⟨["1"], some t1⟩ (checksOf cs1) = (⟨["1"], some t1⟩, []) := by
    refine runChecks_noop cfg _ cs1 (fun c hc => maybeFlush_noop cfg _ c.1 c.2 ?_)
    rintro ⟨-, l, hl, hle⟩
    cases hl
    have hcc := hc1 c hc
    linarith
  have hb2 : runReader cfg ⟨["1"], some t1⟩ [RAction.bit 0 t2] =
      (⟨["1", "0"], some t2⟩, []) := by
    simp [runReader, readerStep, recordBitAsync, toString_zero_bit]
  have hn2 : runReader cfg ⟨["1", "0"], some t2⟩ (checksOf cs2) =
      (⟨["1", "0"], some t2⟩, []) := by
    refine runChecks_noop cfg _ cs2 (fun c hc => maybeFlush_noop cfg _ c.1 c.2 ?_)
    rintro ⟨-, l, hl, hle⟩
    cases hl
    have hcc := hc2 c hc
    linarith
  have hb3 : runReader cfg ⟨["1", "0"], some t2⟩ [RAction.bit 1 t3] =
      (⟨["1", "0", "1"], some t3⟩, []) := by
    simp [runReader, readerStep, recordBitAsync, toString_one_bit]
  have h0 : t3 ≠ 0 := by
    have ht3 : 0 < t3 := lt_of_lt_of_le hpos (le_trans h12 h23)
    exact ne_of_gt ht3
  obtain ⟨ts2, hfl⟩ := runChecks_flush_once cfg ["1", "0", "1"] t3 cs3
    (by simp) h0 hc3
  refine ⟨ts2, ?_⟩
  have hA : runReader cfg emptyReader ([RAction.bit 1 t1] ++ checksOf cs1) =
      (⟨["1"], some t1⟩, []) := by
    have := runReader_seq cfg hb1 hn1
    simpa using this
  have hB : runReader cfg ⟨["1"], some t1⟩
      ([RAction.bit 0 t2] ++ checksOf cs2) = (⟨["1", "0"], some t2⟩, []) := by
    have := runReader_seq cfg hb2 hn2
    simpa using this
  have hC : runReader cfg ⟨["1", "0"], some t2⟩
      ([RAction.bit 1 t3] ++ checksOf cs3) =
        (emptyReader, [mkFlushEvent cfg ["1", "0", "1"] ts2]) := by
    have := runReader_seq cfg hb3 hfl
    simpa using this
  have hBC := runReader_seq cfg hB hC
  have hABC := runReader_seq cfg hA hBC
  simpa [frameActs] using hABC

/-- C6: the deferred flush check is idempotent.  A flush check is a no-op
(state unchanged, nothing emitted) unless the bit buffer is non-empty and the
elapsed time since the recorded last-bit time is at least `pulse_timeout_ms`
seconds-converted; a genuine flush resets the state to empty; hence for any
sequence of scheduled checks at most one (the first to run after the buffer
goes idle) emits a CredentialEvent, and checks running on the already-empty
buffer change nothing and emit nothing. -/
theorem flush_check_idempotent (cfg : WiegandConfig) (st : ReaderState)
    (now ts2 : Time) (cs : List (Time × Time)) :
    (¬ (st.bits ≠ [] ∧ ∃ l, st.last_bit_ts = some l ∧ timeoutS cfg ≤ now - l) →
      maybeFlush cfg st now ts2 = (st, none)) ∧
    (∀ st' e, maybeFlush cfg st now ts2 = (st', some e) → st' = emptyReader) ∧
    ((runReader cfg st (checksOf cs)).2).length ≤ 1 ∧
    runReader cfg emptyReader (checksOf cs) = (emptyReader, []) := by
  refine ⟨maybeFlush_noop cfg st now ts2, ?_,
    runChecks_length_le_one cfg st cs, runChecks_of_empty cfg cs⟩
  intro st' e hmf
  rcases maybeFlush_spec cfg st now ts2 with hspec | hspec
  · rw [hmf] at hspec
    simp at hspec
  · rw [hmf] at hspec
    exact congrArg Prod.fst hspec

/-- Witness for C6 at concrete inputs: with the default 25 ms timeout, a
check 1 ms after a lone buffered bit is a no-op, and a one-check schedule
emits at most one event. -/
theorem flush_check_idempotent_witness :
    maybeFlush ⟨0, 0, "r1", 25⟩ ⟨["1"], some 1⟩ (1 + 1/1000) (1 + 1/1000) =
      (⟨["1"], some 1⟩, none) ∧
    ((runReader ⟨0, 0, "r1", 25⟩ ⟨["1"], some 1⟩
        (checksOf [(1 + 1/1000, 1 + 1/1000)])).2).length ≤ 1 := by
  constructor
  · refine (flush_check_idempotent ⟨0, 0, "r1", 25⟩ ⟨["1"], some 1⟩
      (1 + 1/1000) (1 + 1/1000) []).1 ?_
    rintro ⟨-, l, hl, hle⟩
    simp only [Option.some.injEq] at hl
    rw [timeoutS] at hle
    subst hl
    norm_num at hle
  · exact (flush_check_idempotent ⟨0, 0, "r1", 25⟩ ⟨["1"], some 1⟩ 0 0
      [(1 + 1/1000, 1 + 1/1000)]).2.2.1

/-- C7: feeding the bits 1, 0, 1 with inter-bit gaps below `pulse_timeout_ms`
(so none of the deferred checks interleaved before the last bit can fire a
flush), followed by silence of at least `pulse_timeout_ms` during which a
scheduled check runs, yields exactly one CredentialEvent with raw_bits "101"
and decoded number 5; repeating the same sequence after a second idle period
yields a second independent event, with no leftover buffer state after either
frame.  Timestamps are positive (wall-clock `time.time()` readings). -/
theorem frame_101_twice (cfg : WiegandConfig) (t1 t2 t3 u1 u2 u3 : Time)
    (cs1 cs2 cs3 ds1 ds2 ds3 : List (Time × Time))
    (hpos : 0 < t1) (h12 : t1 ≤ t2) (h23 : t2 ≤ t3)
    (g12 : t2 - t1 < timeoutS cfg) (g23 : t3 - t2 < timeoutS cfg)
    (hc1 : ∀ c ∈ cs1, c.1 ≤ t2) (hc2 : ∀ c ∈ cs2, c.1 ≤ t3)
    (hc3 : ∃ c ∈ cs3, timeoutS cfg ≤ c.1 - t3)
    (hpos' : 0 < u1) (h12' : u1 ≤ u2) (h23' : u2 ≤ u3)
    (g12' : u2 - u1 < timeoutS cfg) (g23' : u3 - u2 < timeoutS cfg)
    (hd1 : ∀ c ∈ ds1, c.1 ≤ u2) (hd2 : ∀ c ∈ ds2, c.1 ≤ u3)
    (hd3 : ∃ c ∈ ds3, timeoutS cfg ≤ c.1 - u3) :
    ∃ e1 e2, runReader cfg emptyReader
        (frameActs t1 t2 t3 cs1 cs2 cs3 ++ frameActs u1 u2 u3 ds1 ds2 ds3) =
          (emptyReader, [e1, e2]) ∧
      e1.raw_bits = "101" ∧ e1.card_number = some 5 ∧
      e2.raw_bits = "101" ∧ e2.card_number = some 5 := by
  obtain ⟨ts2, hrun1⟩ :=
    frame101 cfg t1 t2 t3 cs1 cs2 cs3 hpos h12 h23 g12 g23 hc1 hc2 hc3
  obtain ⟨us2, hrun2⟩ :=
    frame101 cfg u1 u2 u3 ds1 ds2 ds3 hpos' h12' h23' g12' g23' hd1 hd2 hd3
  refine ⟨mkFlushEvent cfg ["1", "0", "1"] ts2, mkFlushEvent cfg ["1", "0", "1"] us2,
    ?_, rfl, rfl, rfl, rfl⟩
  have := runReader_seq cfg hrun1 hrun2
  simpa using this

/-- Witness for C7 at concrete inputs: bits at times 1, 1.01, 1.02 (gaps 10 ms
below the 25 ms timeout), flush check at time 2; second frame at 3, 3.01,
3.02 with check at 4. -/
theorem frame_101_twice_witness :
    ∃ e1 e2, runReader ⟨0, 0, "r1", 25⟩ emptyReader
        (frameActs 1 (1 + 1/100) (1 + 2/100) [] [] [(2, 2)] ++
          frameActs 3 (3 + 1/100) (3 + 2/100) [] [] [(4, 4)]) =
          (emptyReader, [e1, e2]) ∧
      e1.raw_bits = "101" ∧ e1.card_number = some 5 ∧
      e2.raw_bits = "101" ∧ e2.card_number = some 5 := by
  refine frame_101_twice ⟨0, 0, "r1", 25⟩ 1 (1 + 1/100) (1 + 2/100) 3 (3 + 1/100)
    (3 + 2/100) [] [] [(2, 2)] [] [] [(4, 4)]
    (by norm_num) (by norm_num) (by norm_num)
    (by rw [timeoutS]; norm_num) (by rw [timeoutS]; norm_num)
    (by simp) (by simp)
    ⟨(2, 2), by simp, by rw [timeoutS]; norm_num⟩
    (by norm_num) (by norm_num) (by norm_num)
    (by rw [timeoutS]; norm_num) (by rw [timeoutS]; norm_num)
    (by simp) (by simp)
    ⟨(4, 4), by simp, by rw [timeoutS]; norm_num⟩

/-! ## Access Worker (DoorWorker in worker.py) -/

/-- A lock-response payload as seen by `DoorWorker._on_lock_response`, which
reads fields defensively with `getattr(resp, field, None)` because the Pi
drivers publish ad-hoc objects: `door_id` and `request_id` may be absent
(`none`). -/
structure LockPayload where
  door_id : Option String
  request_id : Option String
  status : String
  timestamp : Time
  deriving DecidableEq

/-- LockCommand from devices.py. -/
structure LockCommand where
  request_id : String
  door_id : String
  action : String
  duration_ms : Option ℕ
  timestamp : Time
  deriving DecidableEq

/-- State of one `asyncio.Future` pending waiter: still unresolved, or
resolved (`set_result`) with the first matching response. -/
inductive FutState where
  | pending
  | resolved (resp : LockPayload)
  deriving DecidableEq

/-- `DoorWorker._pending_lock_requests`: request_id to pending waiter. -/
abbrev PendingMap := List (String × FutState)

/-- Per-worker configuration: door id, read-only allow-list, configured
unlock pulse duration. -/
structure WorkerCfg where
  door_id : String
  allow_list : List ℤ
  unlock_duration_ms : ℕ
  deriving DecidableEq

/-- DoorWorker._on_lock_response.  Discards the response when `door_id`
(read via getattr, `none` when absent) differs from the worker's door, when
`request_id` is absent or the empty string (`if req and ...` Python
truthiness), or when it is not a key of the pending map; otherwise resolves
the waiter if and only if it is not already done.  Every operation on this
path is total (getattr has a default, dict membership and lookup cannot
raise), which the totality of this function mirrors. -/
def onLockResponse (w : WorkerCfg) (m : PendingMap) (resp : LockPayload) : PendingMap :=
  if resp.door_id ≠ some w.door_id then m
  else
    match resp.request_id with
    | none => m
    | some req =>
      if req ≠ "" then
        match dGet m req with
        | some FutState.pending => dSet m req (FutState.resolved resp)
        | some (FutState.resolved _) => m
        | none => m
      else m

/-- Registration step of `_unlock_for_card`:
`self._pending_lock_requests[req_id] = fut` with a fresh future. -/
def registerWaiter (m : PendingMap) (reqId : String) : PendingMap :=
  dSet m reqId FutState.pending

/-- The lock responses delivered by the bus during the acknowledgement
window, each handled by `_on_lock_response`. -/
def deliverResponses (w : WorkerCfg) (m : PendingMap) (rs : List LockPayload) :
    PendingMap :=
  rs.foldl (onLockResponse w) m

/-- Outcome of the `asyncio.wait_for(fut, timeout=2.0)` wait: the first
matching response's status, or a timeout. -/
inductive UnlockReport where
  | acknowledged (status : String)
  | timedOut
  deriving DecidableEq

/-- What `_unlock_for_card` reports: acknowledged with the resolved
response's status if the waiter was resolved inside the window, else the
TimeoutError path. -/
def unlockResult (m : PendingMap) (reqId : String) : UnlockReport :=
  match dGet m reqId with
  | some (FutState.resolved r) => UnlockReport.acknowledged r.status
  | _ => UnlockReport.timedOut

/-- DoorWorker._unlock_for_card for a fresh request id `reqId` (a uuid4
string) issued at time `now`: build the pulse LockCommand with the
configured unlock duration, register the pending waiter, submit the command,
let the responses delivered during the acknowledgement window resolve
waiters, report acknowledgement or timeout once, and in the `finally` block
pop the entry (`pop(req_id, None)`). -/
def unlockForCard (w : WorkerCfg) (m : PendingMap) (reqId : String) (now : Time)
    (delivered : List LockPayload) : PendingMap × LockCommand × UnlockReport :=
  let cmd : LockCommand :=
    { request_id := reqId, door_id := w.door_id, action := "pulse",
      duration_ms := some w.unlock_duration_ms, timestamp := now }
  let m2 := deliverResponses w (registerWaiter m reqId) delivered
  (dPop m2 reqId, cmd, unlockResult m2 reqId)

/-- DoorWorker._on_card decision: `evt.card_number in self.allow_list`
(Python `None in set` is False). -/
def cardDecision (w : WorkerCfg) (c : Option ℤ) : Bool :=
  match c with
  | some n => w.allow_list.contains n
  | none => false

/-- DoorWorker._on_card: discard on parity failure; decide allow iff the
card number is in the allow-list; on allow run `_unlock_for_card` (with the
fresh uuid `reqId` and the responses `delivered` during its wait), on deny do
nothing. -/
def onCard (w : WorkerCfg) (m : PendingMap) (evt : CardEvent) (reqId : String)
    (now : Time) (delivered : List LockPayload) :
    PendingMap × Option LockCommand × Option UnlockReport :=
  if evt.parity_ok then
    if cardDecision w evt.card_number then
      match unlockForCard w m reqId now delivered with
      | (m', cmd, rep) => (m', some cmd, some rep)
    else (m, none, none)
  else (m, none, none)

theorem onLockResponse_isSome (w : WorkerCfg) (m : PendingMap)
    (resp : LockPayload) (k : String) :
    (dGet (onLockResponse w m resp) k).isSome = (dGet m k).isSome := by
  unfold onLockResponse
  by_cases hd : resp.door_id ≠ some w.door_id
  · rw [if_pos hd]
  · rw [if_neg hd]
    cases hr : resp.request_id with
    | none => rfl
    | some req =>
      dsimp only
      by_cases he : req ≠ ""
      · rw [if_pos he]
        cases hg : dGet m req with
        | none => rfl
        | some f =>
          cases f with
          | pending =>
            by_cases hk : k = req
            · subst hk
              simp [dGet_dSet_same, hg]
            · simp [dGet_dSet_other m req k _ hk]
          | resolved r => rfl
      · rw [if_neg he]

theorem deliverResponses_isSome (w : WorkerCfg) (m : PendingMap)
    (rs : List LockPayload) (k : String) :
    (dGet (deliverResponses w m rs) k).isSome = (dGet m k).isSome := by
  induction rs generalizing m with
  | nil => rfl
  | cons r rs ih =>
    calc (dGet (deliverResponses w (onLockResponse w m r) rs) k).isSome
        = (dGet (onLockResponse w m r) k).isSome := ih (onLockResponse w m r)
      _ = (dGet m k).isSome := onLockResponse_isSome w m r k

/-- C2: for an issued LockCommand, the pending-waiter entry for its
request_id is removed exactly once.  Response handling never removes
entries, so the entry is still present right before the single `finally`
pop; after `_unlock_for_card` completes the map no longer contains the
request_id while every other entry is untouched by the pop; and the call
reports exactly one outcome, an acknowledgement or a timeout. -/
theorem waiter_removed_exactly_once (w : WorkerCfg) (m : PendingMap)
    (reqId : String) (now : Time) (delivered : List LockPayload) :
    (dGet (deliverResponses w (registerWaiter m reqId) delivered) reqId).isSome = true ∧
    dGet (unlockForCard w m reqId now delivered).1 reqId = none ∧
    (∀ k, k ≠ reqId →
      dGet (unlockForCard w m reqId now delivered).1 k =
        dGet (deliverResponses w (registerWaiter m reqId) delivered) k) ∧
    ((∃ s, (unlockForCard w m reqId now delivered).2.2 = UnlockReport.acknowledged s) ∨
      (unlockForCard w m reqId now delivered).2.2 = UnlockReport.timedOut) := by
  refine ⟨?_, ?_, ?_, ?_⟩
  · rw [deliverResponses_isSome, registerWaiter, dGet_dSet_same]
    rfl
  · exact dGet_dPop_same _ reqId
  · intro k hk
    exact dGet_dPop_other _ reqId k hk
  · cases hres : (unlockForCard w m reqId now delivered).2.2 with
    | acknowledged s => exact Or.inl ⟨s, rfl⟩
    | timedOut => exact Or.inr rfl

/-- Witness for C2 at concrete inputs: worker on door1 with allow-list {5},
fresh request id r1, one matching response delivered in the window. -/
theorem waiter_removed_exactly_once_witness :
    (dGet (deliverResponses ⟨"door1", [5], 5000⟩ (registerWaiter [] "r1")
        [⟨some "door1", some "r1", "unlocked", 0⟩]) "r1").isSome = true ∧
    dGet (unlockForCard ⟨"door1", [5], 5000⟩ [] "r1" 0
        [⟨some "door1", some "r1", "unlocked", 0⟩]).1 "r1" = none ∧
    dGet (unlockForCard ⟨"door1", [5], 5000⟩ [] "r1" 0
        [⟨some "door1", some "r1", "unlocked", 0⟩]).1 "r2" =
      dGet (deliverResponses ⟨"door1", [5], 5000⟩ (registerWaiter [] "r1")
        [⟨some "door1", some "r1", "unlocked", 0⟩]) "r2" := by
  obtain ⟨h1, h2, h3, -⟩ := waiter_removed_exactly_once ⟨"door1", [5], 5000⟩ [] "r1" 0
    [⟨some "door1", some "r1", "unlocked", 0⟩]
  exact ⟨h1, h2, h3 "r2" (by decide)⟩

/-- C3: a LockResponse whose door_id differs from the worker's door, or
whose request_id is absent or not a key of the pending-waiter map, resolves
nothing and leaves the map unchanged; the handler is a total function (no
operation on this path can raise). -/
theorem foreign_response_discarded (w : WorkerCfg) (m : PendingMap)
    (resp : LockPayload)
    (h : resp.door_id ≠ some w.door_id ∨ resp.request_id = none ∨
      ∀ req, resp.request_id = some req → dGet m req = none) :
    onLockResponse w m resp = m := by
  unfold onLockResponse
  by_cases hd : resp.door_id ≠ some w.door_id
  · rw [if_pos hd]
  · rw [if_neg hd]
    cases hr : resp.request_id with
    | none => rfl
    | some req =>
      dsimp only
      by_cases he : req ≠ ""
      · rw [if_pos he]
        rcases h with h | h | h
        · exact absurd h hd
        · rw [hr] at h
          cases h
        · rw [h req hr]
      · rw [if_neg he]

/-- Witness for C3 at concrete inputs: a response for a foreign door, and a
response with an unknown request id, both leave a one-entry map unchanged. -/
theorem foreign_response_discarded_witness :
    onLockResponse ⟨"door1", [5], 5000⟩ [("r1", FutState.pending)]
        ⟨some "door9", some "r1", "unlocked", 0⟩ = [("r1", FutState.pending)] ∧
    onLockResponse ⟨"door1", [5], 5000⟩ [("r1", FutState.pending)]
        ⟨some "door1", some "zz", "unlocked", 0⟩ = [("r1", FutState.pending)] := by
  constructor
  · exact foreign_response_discarded ⟨"door1", [5], 5000⟩ [("r1", FutState.pending)]
      ⟨some "door9", some "r1", "unlocked", 0⟩ (Or.inl (by decide))
  · refine foreign_response_discarded ⟨"door1", [5], 5000⟩ [("r1", FutState.pending)]
      ⟨some "door1", some "zz", "unlocked", 0⟩ (Or.inr (Or.inr ?_))
    intro req hreq
    cases hreq
    decide

/-- C4: a CredentialEvent with parity_ok false is discarded: no LockCommand,
no report, no pending waiter, map unchanged, for every card number. -/
theorem parity_failure_discarded (w : WorkerCfg) (m : PendingMap)
    (evt : CardEvent) (reqId : String) (now : Time)
    (delivered : List LockPayload) (h : evt.parity_ok = false) :
    onCard w m evt reqId now delivered = (m, none, none) := by
  simp [onCard, h]

/-- Witness for C4 at concrete inputs: parity failure on an allow-listed
card number still produces nothing. -/
theorem parity_failure_discarded_witness :
    onCard ⟨"door1", [5], 5000⟩ [] ⟨"r1", "101", "raw", some 5, false, 1⟩
      "u1" 1 [] = ([], none, none) :=
  parity_failure_discarded ⟨"door1", [5], 5000⟩ []
    ⟨"r1", "101", "raw", some 5, false, 1⟩ "u1" 1 [] rfl

theorem cardDecision_iff (w : WorkerCfg) (c : Option ℤ) :
    cardDecision w c = true ↔ ∃ n, c = some n ∧ n ∈ w.allow_list := by
  cases c with
  | none => simp [cardDecision]
  | some n => simp [cardDecision]

/-- C5: with parity_ok true, a LockCommand is issued if and only if the
decoded number is a member of the allow-list; a deny changes nothing and
issues nothing; an allow issues exactly one pulse LockCommand carrying the
fresh request id and the configured unlock duration. -/
theorem allow_iff_allowlist (w : WorkerCfg) (m : PendingMap) (evt : CardEvent)
    (reqId : String) (now : Time) (delivered : List LockPayload)
    (hp : evt.parity_ok = true) :
    (((onCard w m evt reqId now delivered).2.1 ≠ none) ↔
      ∃ n, evt.card_number = some n ∧ n ∈ w.allow_list) ∧
    (¬ (∃ n, evt.card_number = some n ∧ n ∈ w.allow_list) →
      onCard w m evt reqId now delivered = (m, none, none)) ∧
    ((∃ n, evt.card_number = some n ∧ n ∈ w.allow_list) →
      (onCard w m evt reqId now delivered).2.1 =
        some { request_id := reqId, door_id := w.door_id, action := "pulse",
               duration_ms := some w.unlock_duration_ms, timestamp := now }) := by
  by_cases hdec : cardDecision w evt.card_number = true
  · have hmem := (cardDecision_iff w evt.card_number).mp hdec
    have hcmd : (onCard w m evt reqId now delivered).2.1 =
        some { request_id := reqId, door_id := w.door_id, action := "pulse",
               duration_ms := some w.unlock_duration_ms, timestamp := now } := by
      simp [onCard, hp, hdec, unlockForCard]
    refine ⟨?_, ?_, fun _ => hcmd⟩
    · rw [hcmd]
      simp [hmem]
    · intro hn
      exact absurd hmem hn
  · have hmem : ¬ ∃ n, evt.card_number = some n ∧ n ∈ w.allow_list :=
      fun hn => hdec ((cardDecision_iff w evt.card_number).mpr hn)
    have hres : onCard w m evt reqId now delivered = (m, none, none) := by
      simp [onCard, hp, hdec]
    refine ⟨?_, fun _ => hres, fun hn => absurd hn hmem⟩
    rw [hres]
    simp [hmem]

/-- Witness for C5 at concrete inputs: allow-listed number 5 yields the
pulse command; number 7 outside the allow-list yields nothing. -/
theorem allow_iff_allowlist_witness :
    (onCard ⟨"door1", [5], 5000⟩ [] ⟨"r1", "101", "raw", some 5, true, 1⟩
        "u1" 1 []).2.1 =
      some { request_id := "u1", door_id := "door1", action := "pulse",
             duration_ms := some 5000, timestamp := 1 } ∧
    onCard ⟨"door1", [5], 5000⟩ [] ⟨"r1", "111", "raw", some 7, true, 1⟩
        "u2" 1 [] = ([], none, none) := by
  constructor
  · exact (allow_iff_allowlist ⟨"door1", [5], 5000⟩ []
      ⟨"r1", "101", "raw", some 5, true, 1⟩ "u1" 1 [] rfl).2.2 ⟨5, rfl, by decide⟩
  · refine (allow_iff_allowlist ⟨"door1", [5], 5000⟩ []
      ⟨"r1", "111", "raw", some 7, true, 1⟩ "u2" 1 [] rfl).2.1 ?_
    rintro ⟨n, hn, hmem⟩
    cases hn
    simp at hmem

/-! ## Lock actuators (SimLockController in devices.py, PiLockController in
pi_gpio.py) -/

/-- One response publication on the `lock_response` topic: its delay in
seconds after the `send_command` call began, and the payload.  Sleeps are
idealised as exact, so the `time.time()` stamp of a publication is the start
time plus its delay. -/
structure Emission where
  delay_s : Time
  resp : LockPayload
  deriving DecidableEq

/-- Python `cmd.duration_ms or default`: the left operand wins unless it is
falsy, and both `None` and `0` are falsy. -/
def effDuration (d : Option ℕ) (dflt : ℕ) : ℕ :=
  match d with
  | some v => if v ≠ 0 then v else dflt
  | none => dflt

/-- SimLockController.send_command, as the list of lock_response
publications it causes (`t0` is the `time.time()` at the call): for pulse,
an immediate `unlocked` response and, `duration/1000` seconds later from the
background relock task, a `locked` response, both echoing the command's
request_id; one terminal response for lock/unlock; an `error` response
otherwise.  (The function also returns the first response to its caller;
only the published responses matter to the modelled claims.) -/
def simSendCommand (door_id : String) (default_pulse_ms : ℕ) (cmd : LockCommand)
    (t0 : Time) : List Emission :=
  let duration := effDuration cmd.duration_ms default_pulse_ms
  if cmd.action = "pulse" then
    [⟨0, ⟨some door_id, some cmd.request_id, "unlocked", t0⟩⟩,
     ⟨(duration : ℚ) / 1000,
      ⟨some door_id, some cmd.request_id, "locked", t0 + (duration : ℚ) / 1000⟩⟩]
  else if cmd.action = "lock" ∨ cmd.action = "unlock" then
    [⟨0, ⟨some door_id, some cmd.request_id,
          if cmd.action = "lock" then "locked" else "unlocked", t0⟩⟩]
  else
    [⟨0, ⟨some door_id, some cmd.request_id, "error", t0⟩⟩]

/-- PiLockController.send_command, published responses only (the GPIO pin
writes drive the physical coil and are outside the modelled event layer):
same response protocol as the simulator with the hard-coded 3000 ms pulse
fallback `(cmd.duration_ms or 3000)`, publishing ad-hoc objects whose fields
match LockPayload. -/
def piSendCommand (door_id : String) (cmd : LockCommand) (t0 : Time) :
    List Emission :=
  let duration := effDuration cmd.duration_ms 3000
  if cmd.action = "pulse" then
    [⟨0, ⟨some door_id, some cmd.request_id, "unlocked", t0⟩⟩,
     ⟨(duration : ℚ) / 1000,
      ⟨some door_id, some cmd.request_id, "locked", t0 + (duration : ℚ) / 1000⟩⟩]
  else if cmd.action = "lock" ∨ cmd.action = "unlock" then
    [⟨0, ⟨some door_id, some cmd.request_id,
          if cmd.action = "unlock" then "unlocked" else "locked", t0⟩⟩]
  else
    [⟨0, ⟨some door_id, some cmd.request_id, "error", t0⟩⟩]

/-! ## Event Bus (EventBus in devices.py) -/

/-- `EventBus._subs`: event name to list of registered callbacks.  Callbacks
are opaque values compared by identity, modelled as an arbitrary type with
decidable equality. -/
abbrev Bus (H : Type) := List (String × List H)

/-- EventBus.subscribe: `self._subs.setdefault(event_name, []).append(cb)`. -/
def subscribe {H : Type} (b : Bus H) (topic : String) (cb : H) : Bus H :=
  dSet b topic ((dGet b topic).getD [] ++ [cb])

/-- EventBus.unsubscribe: `lst = self._subs.get(event_name); if lst and cb in
lst: lst.remove(cb)` — removes the first matching registration; absent topic
is a no-op, and the empty-list falsy case coincides with `cb in lst` being
false.  Total: nothing on this path can raise. -/
def unsubscribe {H : Type} [DecidableEq H] (b : Bus H) (topic : String) (cb : H) :
    Bus H :=
  match dGet b topic with
  | some lst => if cb ∈ lst then dSet b topic (lst.erase cb) else b
  | none => b

/-- EventBus.publish iterates over `list(self._subs.get(event_name, []))` —
a snapshot copied at the moment of the call — spawning one task per
callback.  This is that snapshot. -/
def publishDispatch {H : Type} (b : Bus H) (topic : String) : List H :=
  (dGet b topic).getD []

/-- An operation on the bus, for temporal-ordering statements. -/
inductive BusOp (H P : Type) where
  | sub (topic : String) (cb : H)
  | unsub (topic : String) (cb : H)
  | pub (topic : String) (payload : P)

/-- One bus operation: subscriptions mutate the bus; a publish leaves the
bus unchanged and spawns one `(callback, payload)` task per callback in the
snapshot taken at invocation. -/
def busStep {H P : Type} [DecidableEq H] (b : Bus H) :
    BusOp H P → Bus H × List (H × P)
  | .sub t cb => (subscribe b t cb, [])
  | .unsub t cb => (unsubscribe b t cb, [])
  | .pub t p => (b, (publishDispatch b t).map (fun cb => (cb, p)))

/-- Run a sequence of bus operations, accumulating all spawned handler
tasks in order. -/
def busRun {H P : Type} [DecidableEq H] (b : Bus H) (ops : List (BusOp H P)) :
    Bus H × List (H × P) :=
  ops.foldl
    (fun acc op =>
      match busStep acc.1 op with
      | (b', ds) => (b', acc.2 ++ ds)) (b, [])

/-- Iterated subscription of the same callback to the same topic. -/
def subscribeN {H : Type} (b : Bus H) (topic : String) (cb : H) : ℕ → Bus H
  | 0 => b
  | n + 1 => subscribe (subscribeN b topic cb n) topic cb

theorem publishDispatch_subscribe {H : Type} (b : Bus H) (t : String) (cb : H) :
    publishDispatch (subscribe b t cb) t = publishDispatch b t ++ [cb] := by
  simp [publishDispatch, subscribe, dGet_dSet_same]

/-- C8 counterexample: a pulse command with `duration_ms = 0` is accepted,
but its relock response is published after the default pulse duration (5
seconds here), not after the command's `duration_ms` (0 seconds), because
`cmd.duration_ms or self.default_pulse_ms` treats 0 as falsy. -/
theorem pulse_relock_delay_counterexample :
    (simSendCommand "door1" 5000 ⟨"r1", "door1", "pulse", some 0, 0⟩ 0).map
        Emission.delay_s = [0, 5] ∧
    (5 : ℚ) ≠ ((0 : ℕ) : ℚ) / 1000 := by
  constructor
  · norm_num [simSendCommand, effDuration]
  · norm_num

/-- C8 (amended): for every pulse command the actuators (simulator and Pi
driver) publish exactly two responses carrying the command's request_id —
first `unlocked` immediately, then `locked` after the effective duration
(`duration_ms` when present and non-zero, else the controller's default
pulse duration) — and for a command whose action is neither pulse, lock nor
unlock they publish a single `error` response. -/
theorem pulse_two_responses (door : String) (dflt : ℕ) (cmd : LockCommand)
    (t0 : Time) :
    (cmd.action = "pulse" →
      simSendCommand door dflt cmd t0 =
        [⟨0, ⟨some door, some cmd.request_id, "unlocked", t0⟩⟩,
         ⟨(effDuration cmd.duration_ms dflt : ℚ) / 1000,
          ⟨some door, some cmd.request_id, "locked",
           t0 + (effDuration cmd.duration_ms dflt : ℚ) / 1000⟩⟩] ∧
      piSendCommand door cmd t0 =
        [⟨0, ⟨some door, some cmd.request_id, "unlocked", t0⟩⟩,
         ⟨(effDuration cmd.duration_ms 3000 : ℚ) / 1000,
          ⟨some door, some cmd.request_id, "locked",
           t0 + (effDuration cmd.duration_ms 3000 : ℚ) / 1000⟩⟩]) ∧
    (cmd.action ≠ "pulse" → cmd.action ≠ "lock" → cmd.action ≠ "unlock" →
      simSendCommand door dflt cmd t0 =
        [⟨0, ⟨some door, some cmd.request_id, "error", t0⟩⟩] ∧
      piSendCommand door cmd t0 =
        [⟨0, ⟨some door, some cmd.request_id, "error", t0⟩⟩]) := by
  constructor
  · intro hp
    constructor
    · simp [simSendCommand, hp]
    · simp [piSendCommand, hp]
  · intro h1 h2 h3
    constructor
    · simp [simSendCommand, h1, h2, h3]
    · simp [piSendCommand, h1, h2, h3]

/-- Witness for C8 (amended) at concrete inputs: a 3000 ms pulse yields the
unlocked/locked pair 3 seconds apart; an unrecognized action yields one
error response. -/
theorem pulse_two_responses_witness :
    simSendCommand "door1" 5000 ⟨"r1", "door1", "pulse", some 3000, 0⟩ 0 =
      [⟨0, ⟨some "door1", some "r1", "unlocked", 0⟩⟩,
       ⟨(effDuration (some 3000) 5000 : ℚ) / 1000,
        ⟨some "door1", some "r1", "locked",
         0 + (effDuration (some 3000) 5000 : ℚ) / 1000⟩⟩] ∧
    simSendCommand "door1" 5000 ⟨"r2", "door1", "open_sesame", none, 0⟩ 0 =
      [⟨0, ⟨some "door1", some "r2", "error", 0⟩⟩] := by
  constructor
  · exact ((pulse_two_responses "door1" 5000 ⟨"r1", "door1", "pulse", some 3000, 0⟩
      0).1 rfl).1
  · exact ((pulse_two_responses "door1" 5000 ⟨"r2", "door1", "open_sesame", none, 0⟩
      0).2 (by decide) (by decide) (by decide)).1

/-- C9: a publish dispatches the payload to exactly the handlers subscribed
at the moment publish is invoked.  Publishing on a topic with no subscriber
entry spawns nothing, changes nothing, and (being total) does not raise; the
spawned tasks are the invocation-time snapshot paired with the payload; and
a handler subscribed right after a publish is not among that publish's
tasks. -/
theorem publish_snapshot (H P : Type) [DecidableEq H] (b : Bus H) (t : String)
    (p : P) (h : H) :
    (dGet b t = none → busStep b (BusOp.pub t p) = (b, [])) ∧
    ((busStep b (BusOp.pub t p)).2 =
      (publishDispatch b t).map (fun cb => (cb, p))) ∧
    (h ∉ publishDispatch b t →
      (busRun b [BusOp.pub t p, BusOp.sub t h]).2 =
        (publishDispatch b t).map (fun cb => (cb, p)) ∧
      ∀ pr ∈ (busRun b [BusOp.pub t p, BusOp.sub t h]).2, pr.1 ≠ h) := by
  refine ⟨?_, rfl, ?_⟩
  · intro h0
    simp [busStep, publishDispatch, h0]
  · intro hnot
    have hrun : (busRun b [BusOp.pub t p, BusOp.sub t h]).2 =
        (publishDispatch b t).map (fun cb => (cb, p)) := by
      simp [busRun, busStep]
    refine ⟨hrun, ?_⟩
    intro pr hpr
    rw [hrun] at hpr
    obtain ⟨cb, hcb, hpr'⟩ := List.mem_map.mp hpr
    intro hcontra
    apply hnot
    rw [← hpr'] at hcontra
    simp at hcontra
    exact hcontra ▸ hcb

/-- Witness for C9 at concrete inputs: publishing on a topic with no entry
is a no-op; with subscribers 1, 2 on lock_response, handler 3 subscribed
after a publish receives nothing from it. -/
theorem publish_snapshot_witness :
    busStep [("lock_response", [1, 2])] (BusOp.pub "card_read" (37 : ℕ)) =
      ([("lock_response", [1, 2])], []) ∧
    (busRun [("lock_response", [1, 2])]
        [BusOp.pub "lock_response" (37 : ℕ), BusOp.sub "lock_response" 3]).2 =
      (publishDispatch [("lock_response", [1, 2])] "lock_response").map
        (fun cb => (cb, 37)) := by
  constructor
  · exact (publish_snapshot ℕ ℕ [("lock_response", [1, 2])] "card_read" 37 3).1
      (by decide)
  · exact ((publish_snapshot ℕ ℕ [("lock_response", [1, 2])] "lock_response" 37
      3).2.2 (by decide)).1

/-- C10: duplicate subscription is additive: subscribing the same handler n
times to a topic it was not subscribed to makes one publish spawn it n
times; unsubscribe removes exactly one registration (the count drops by
one); and unsubscribing a handler that is not subscribed — including on an
unknown topic — leaves the bus unchanged and (being total) does not raise. -/
theorem duplicate_subscription_additive (H : Type) [DecidableEq H] (b : Bus H)
    (t : String) (h : H) (n : ℕ) :
    (h ∉ publishDispatch b t →
      (publishDispatch (subscribeN b t h n) t).count h = n) ∧
    (h ∈ publishDispatch b t →
      (publishDispatch (unsubscribe b t h) t).count h + 1 =
        (publishDispatch b t).count h) ∧
    (h ∉ publishDispatch b t → unsubscribe b t h = b) := by
  refine ⟨?_, ?_, ?_⟩
  · intro hnot
    induction n with
    | zero =>
      simpa [subscribeN, List.count_eq_zero] using hnot
    | succ n ih =>
      rw [subscribeN, publishDispatch_subscribe]
      simp [List.count_append, ih]
  · intro hmem
    cases hg : dGet b t with
    | none =>
      rw [publishDispatch, hg] at hmem
      simp at hmem
    | some lst =>
      have hl : h ∈ lst := by
        rw [publishDispatch, hg] at hmem
        simpa using hmem
      have hcnt : 0 < lst.count h := List.count_pos_iff.mpr hl
      have hunsub : unsubscribe b t h = dSet b t (lst.erase h) := by
        unfold unsubscribe
        rw [hg]
        dsimp only
        rw [if_pos hl]
      simp only [publishDispatch, hunsub, dGet_dSet_same, hg, Option.getD_some]
      rw [List.count_erase_self]
      omega
  · intro hnot
    unfold unsubscribe
    cases hg : dGet b t with
    | none => rfl
    | some lst =>
      have hl : h ∉ lst := by
        rw [publishDispatch, hg] at hnot
        simpa using hnot
      dsimp only
      rw [if_neg hl]

/-- Witness for C10 at concrete inputs: three subscriptions of handler 7 on
an initially empty bus yield a dispatch count of 3, and unsubscribing from
the empty bus is a no-op. -/
theorem duplicate_subscription_additive_witness :
    (publishDispatch (subscribeN ([] : Bus ℕ) "card_read" 7 3) "card_read").count 7
      = 3 ∧
    unsubscribe ([] : Bus ℕ) "card_read" 7 = [] := by
  constructor
  · exact (duplicate_subscription_additive ℕ [] "card_read" 7 3).1 (by decide)
  · exact (duplicate_subscription_additive ℕ [] "card_read" 7 3).2.2 (by decide)

/-! ## Parity reporting of the Frame Assembler (C1) -/

/-- The spec's description of the assembler's parity reporting, stated for
comparison with the source: a pass-through assembler would emit, for each
completed frame, exactly the parity indication the hardware driver supplied.
(The driver boundary in pi_gpio.py, `_record_bit(bit)` feeding
`_record_bit_async(bit, ts)`, carries no such indication.) -/
def specAssemblerParity (driverParity : Bool) : Bool := driverParity

/-- C1 counterexample: the assembler emits `parity_ok = true` (a hard-coded
literal in `_maybe_flush`) for a concrete completed frame, whereas a
pass-through of a driver indication of false would have to emit false; and
indeed `recordBitAsync` accepts only a bit value and a timestamp, so no
driver parity indication reaches the assembler at all. -/
theorem parity_not_passed_through :
    ((maybeFlush ⟨0, 0, "r1", 25⟩ ⟨["1", "0", "1"], some 1⟩ 2 2).2.map
        CardEvent.parity_ok) = some true ∧
    specAssemblerParity false ≠ true := by
  constructor
  · rw [maybeFlush_emit ⟨0, 0, "r1", 25⟩ ⟨["1", "0", "1"], some 1⟩ 2 2 1 (by simp)
      rfl (by norm_num) (by rw [timeoutS]; norm_num)]
    rfl
  · decide

/-- C1 (amended): every CredentialEvent emitted by a flush of the Frame
Assembler has `parity_ok = true`, independent of the buffer contents: the
assembler neither computes parity from the bits nor receives any parity
indication from the driver to pass through. -/
theorem parity_constant_true (cfg : WiegandConfig) (st : ReaderState)
    (now ts2 : Time) (st' : ReaderState) (e : CardEvent)
    (h : maybeFlush cfg st now ts2 = (st', some e)) : e.parity_ok = true := by
  rcases maybeFlush_spec cfg st now ts2 with hs | hs
  · rw [h] at hs
    simp at hs
  · rw [h] at hs
    have h2 : some e = some (mkFlushEvent cfg st.bits ts2) := congrArg Prod.snd hs
    injection h2 with h3
    rw [h3]
    rfl

/-- Witness for C1 (amended) at a concrete flush. -/
theorem parity_constant_true_witness :
    (mkFlushEvent ⟨0, 0, "r1", 25⟩ ["1", "0", "1"] 2).parity_ok = true :=
  parity_constant_true ⟨0, 0, "r1", 25⟩ ⟨["1", "0", "1"], some 1⟩ 2 2 emptyReader
    (mkFlushEvent ⟨0, 0, "r1", 25⟩ ["1", "0", "1"] 2)
    (maybeFlush_emit ⟨0, 0, "r1", 25⟩ ⟨["1", "0", "1"], some 1⟩ 2 2 1 (by simp) rfl
      (by norm_num) (by rw [timeoutS]; norm_num))

end DoorScan
